import Mathlib

/-
Verification development for the photo metadata generation pipeline of
`astro-photostream`.  The definitions below are a shallow embedding of the
TypeScript source, chiefly `src/utils/metadata.ts` (ExifProcessor,
LLMAnalyzer.compressImageForAPI, GeocodeProcessor.reverseGeocode,
PhotoMetadataGenerator.generateMetadata) and
`src/scripts/photo-metadata-generator.ts` (the CLI orchestrator: file
discovery, skip logic, batch loop, update modes).  External libraries
(sharp, exifr, gray-matter, the network) are modelled as abstract oracles
passed in as parameters; everything written in the repository itself is
translated directly.
-/

-- ===========================================================================
-- Image compression (LLMAnalyzer.compressImageForAPI, src/utils/metadata.ts)
-- ===========================================================================

/-- The byte budget `Math.floor(5 * 1024 * 1024 * 0.75)` for compressed
uploads.  `0.75` is exact in binary floating point, so the JS value is
exactly `3932160`. -/
def MAX_BUFFER_SIZE : Nat := 5 * 1024 * 1024 * 3 / 4

/-- One call to `sharp(...).resize(maxWidth, maxWidth, { fit: 'inside',
withoutEnlargement: true }).jpeg({ quality })`.  The resize options are part
of the call record so that theorems can speak about them. -/
structure SharpCall where
  quality : Nat
  maxWidth : Nat
  fitInside : Bool
  withoutEnlargement : Bool
deriving DecidableEq, Repr

/-- The call the source constructs for given quality and width: the fit
options are the literal constants of the source. -/
def mkSharpCall (quality maxWidth : Nat) : SharpCall :=
  { quality := quality, maxWidth := maxWidth,
    fitInside := true, withoutEnlargement := true }

/-- The parameter update of the compression loop body.
`Math.floor(maxWidth * 0.8)` equals `maxWidth * 4 / 5` in natural division
for every width the loop can reach (the product of an integer of this
magnitude with the IEEE double nearest 0.8 floors to the same value). -/
def budgetStep (quality maxWidth : Nat) : Nat × Nat :=
  if 40 < quality then
    (quality - 15, maxWidth)
  else if 800 < maxWidth then
    (max quality 30, maxWidth * 4 / 5)
  else
    (quality - 5, maxWidth)

/-- The decrease used to justify termination of the source's while loop. -/
theorem budgetStep_decreases (q w : Nat) (h : 20 < q ∨ 800 < w) :
    (budgetStep q w).1 + (budgetStep q w).2 < q + w := by
  unfold budgetStep
  split
  · omega
  · split
    · simp only
      omega
    · omega

/-- The while loop of `compressImageForAPI`.  `render` abstracts sharp: it
maps a call (quality, width, fit options) to the length of the produced
buffer.  `len` is the length of the most recent buffer.  Returns `Except`:
`error` models the `throw new Error` after the loop, `ok` the returned
buffer (represented by its length, the only attribute the budget check
reads). -/
def compressGo (render : SharpCall → Nat) (quality maxWidth len : Nat) :
    Except Unit Nat :=
  if MAX_BUFFER_SIZE < len ∧ (20 < quality ∨ 800 < maxWidth) then
    let p := budgetStep quality maxWidth
    compressGo render p.1 p.2 (render (mkSharpCall p.1 p.2))
  else if MAX_BUFFER_SIZE < len then
    Except.error ()
  else
    Except.ok len
termination_by quality + maxWidth
decreasing_by
  exact budgetStep_decreases quality maxWidth (by omega)

/-- The whole of `compressImageForAPI`: initial attempt at quality 85, max width 1920,
then the progressive loop. -/
def compressImageForAPI (render : SharpCall → Nat) : Except Unit Nat :=
  compressGo render 85 1920 (render (mkSharpCall 85 1920))

/-- The list of sharp calls the loop issues after an initial call, starting
from state (quality, maxWidth) with current buffer length `len`. -/
def attemptsGo (render : SharpCall → Nat) (quality maxWidth len : Nat) :
    List SharpCall :=
  if MAX_BUFFER_SIZE < len ∧ (20 < quality ∨ 800 < maxWidth) then
    let p := budgetStep quality maxWidth
    mkSharpCall p.1 p.2 ::
      attemptsGo render p.1 p.2 (render (mkSharpCall p.1 p.2))
  else
    []
termination_by quality + maxWidth
decreasing_by
  exact budgetStep_decreases quality maxWidth (by omega)

/-- All sharp calls `compressImageForAPI` issues, in order. -/
def compressionAttempts (render : SharpCall → Nat) : List SharpCall :=
  mkSharpCall 85 1920 :: attemptsGo render 85 1920 (render (mkSharpCall 85 1920))

/-- The fixed parameter schedule: quality drops 85→70→55→40, then the width
shrinks 1920→1536→1228→982→785 (quality held at 40 by the `max _ 30`
reset), then quality drops 40→35→30→25→20.  At (20, 785) the loop guard
`quality > 20 || maxWidth > 800` fails. -/
def fullSchedule : List SharpCall :=
  [mkSharpCall 85 1920, mkSharpCall 70 1920, mkSharpCall 55 1920,
   mkSharpCall 40 1920, mkSharpCall 40 1536, mkSharpCall 40 1228,
   mkSharpCall 40 982, mkSharpCall 40 785, mkSharpCall 35 785,
   mkSharpCall 30 785, mkSharpCall 25 785, mkSharpCall 20 785]

/-- The parameter states the loop would walk through if every attempt stayed
over budget: the schedule determined solely by `budgetStep` and the guard
`quality > 20 || maxWidth > 800`. -/
def scheduleFrom (quality maxWidth : Nat) : List SharpCall :=
  if 20 < quality ∨ 800 < maxWidth then
    let p := budgetStep quality maxWidth
    mkSharpCall p.1 p.2 :: scheduleFrom p.1 p.2
  else []
termination_by quality + maxWidth
decreasing_by
  exact budgetStep_decreases quality maxWidth (by omega)

theorem attemptsGo_prefix_scheduleFrom (render : SharpCall → Nat) :
    ∀ m q w len, q + w = m →
      attemptsGo render q w len <+: scheduleFrom q w := by
  intro m
  induction m using Nat.strong_induction_on with
  | _ m ih =>
    intro q w len hm
    rw [attemptsGo, scheduleFrom]
    by_cases hg : MAX_BUFFER_SIZE < len ∧ (20 < q ∨ 800 < w)
    · rw [if_pos hg, if_pos hg.2]
      exact List.cons_prefix_cons.mpr
        ⟨rfl, ih _ (hm ▸ budgetStep_decreases q w hg.2) _ _ _ rfl⟩
    · rw [if_neg hg]
      exact List.nil_prefix

theorem scheduleFrom_eq_tail : mkSharpCall 85 1920 :: scheduleFrom 85 1920 = fullSchedule := by
  rw [scheduleFrom]; norm_num [budgetStep]
  rw [scheduleFrom]; norm_num [budgetStep]
  rw [scheduleFrom]; norm_num [budgetStep]
  rw [scheduleFrom]; norm_num [budgetStep]
  rw [scheduleFrom]; norm_num [budgetStep]
  rw [scheduleFrom]; norm_num [budgetStep]
  rw [scheduleFrom]; norm_num [budgetStep]
  rw [scheduleFrom]; norm_num [budgetStep]
  rw [scheduleFrom]; norm_num [budgetStep]
  rw [scheduleFrom]; norm_num [budgetStep]
  rw [scheduleFrom]; norm_num [budgetStep]
  rw [scheduleFrom]; norm_num [budgetStep, fullSchedule]

theorem compressGo_ok_le (render : SharpCall → Nat) :
    ∀ m q w len n, q + w = m → compressGo render q w len = Except.ok n →
      n ≤ MAX_BUFFER_SIZE := by
  intro m
  induction m using Nat.strong_induction_on with
  | _ m ih =>
    intro q w len n hm h
    rw [compressGo] at h
    by_cases hg : MAX_BUFFER_SIZE < len ∧ (20 < q ∨ 800 < w)
    · rw [if_pos hg] at h
      exact ih _ (hm ▸ budgetStep_decreases q w hg.2) _ _ _ _ rfl h
    · rw [if_neg hg] at h
      by_cases hb : MAX_BUFFER_SIZE < len
      · rw [if_pos hb] at h
        cases h
      · rw [if_neg hb] at h
        cases h
        omega

-- ===========================================================================
-- Reverse geocoding (GeocodeProcessor.reverseGeocode, src/utils/metadata.ts)
-- ===========================================================================

/-- A component value of an OpenCage result: a plain string or a
language-keyed object (modelled as an ordered key-value list, mirroring JS
object iteration order for `Object.values(...)[0]`). -/
inductive CompVal where
  | str : String → CompVal
  | map : List (String × String) → CompVal
deriving DecidableEq, Repr

/-- JS truthiness of a component field: `undefined` and the empty string are
falsy; any object is truthy. -/
def compTruthy : Option CompVal → Bool
  | none => false
  | some (CompVal.str s) => s ≠ ""
  | some (CompVal.map _) => true

/-- The `components` of one OpenCage result, restricted to every field the
source reads.  `road` is carried (OpenCage returns it) but, as the theorems
show, never read by the assembly. -/
structure Components where
  attraction : Option CompVal := none
  mountain : Option CompVal := none
  peak : Option CompVal := none
  tourism : Option CompVal := none
  hamlet : Option CompVal := none
  village : Option CompVal := none
  suburb : Option CompVal := none
  town : Option CompVal := none
  city : Option CompVal := none
  county : Option CompVal := none
  state : Option CompVal := none
  country : Option CompVal := none
  road : Option CompVal := none
deriving DecidableEq, Repr

/-- One OpenCage result: components plus the optional confidence (0-10). -/
structure GeoResult where
  components : Components
  confidence : Option Nat := none
deriving DecidableEq, Repr

/-- The source's `getEnglishName` helper: a string component is returned
as-is; for an object it is `componentObj.en || componentObj.eng ||
Object.values(componentObj)[0]` (JS `||` skips empty strings); `undefined`
stays `undefined`. -/
def getEnglishName : Option CompVal → Option String
  | none => none
  | some (CompVal.str s) => some s
  | some (CompVal.map ps) =>
    match ps.lookup "en" with
    | some s =>
      if s ≠ "" then some s
      else match ps.lookup "eng" with
        | some t => if t ≠ "" then some t else (ps.head?.map Prod.snd)
        | none => ps.head?.map Prod.snd
    | none =>
      match ps.lookup "eng" with
      | some t => if t ≠ "" then some t else (ps.head?.map Prod.snd)
      | none => ps.head?.map Prod.snd

/-- The push idiom `if (x) parts.push(x)` for a name obtained from
`getEnglishName`. -/
def truthyPush : Option String → List String
  | none => []
  | some s => if s = "" then [] else [s]

/-- The specificity ladder of the scoring loop (the if/else chain on the
candidate's components), doubled so that the later `confidence * 0.5` boost
stays in the naturals. -/
def ladderScore2 (c : Components) : Nat :=
  if compTruthy c.attraction || compTruthy c.mountain || compTruthy c.peak then 24
  else if compTruthy c.tourism then 22
  else if compTruthy c.hamlet then 20
  else if compTruthy c.village then 18
  else if compTruthy c.suburb then 16
  else if compTruthy c.town then 14
  else if compTruthy c.city then 12
  else if compTruthy c.county then 8
  else if compTruthy c.state then 6
  else if compTruthy c.country then 2
  else 0

/-- Twice the specificity of one result: ladder value plus
`confidence * 0.5` when the confidence is truthy (`0` and `undefined` are
falsy).  Doubling keeps the comparison exact in `Nat`. -/
def specificity2 (r : GeoResult) : Nat :=
  ladderScore2 r.components +
    (match r.confidence with
     | some n => if n ≠ 0 then n else 0
     | none => 0)

/-- The selection loop: `bestResult` starts at `results[0]`,
`bestSpecificity` at 0, and a candidate replaces the best exactly when its
specificity is strictly greater. -/
def selectBestGo : List GeoResult → GeoResult → Nat → GeoResult
  | [], best, _ => best
  | r :: rest, best, bs =>
    if bs < specificity2 r then selectBestGo rest r (specificity2 r)
    else selectBestGo rest best bs

/-- Landmark tier of the assembly: `attraction`, else `mountain`, else
`peak`, the chain keyed on component truthiness, each pushing its English
name when that name is truthy. -/
def landmarkPart (c : Components) : List String :=
  if compTruthy c.attraction then truthyPush (getEnglishName c.attraction)
  else if compTruthy c.mountain then truthyPush (getEnglishName c.mountain)
  else if compTruthy c.peak then truthyPush (getEnglishName c.peak)
  else []

/-- Settlement tier: `hamlet`, else `village`, else `suburb`, else `town`,
else `city`. -/
def settlementPart (c : Components) : List String :=
  if compTruthy c.hamlet then truthyPush (getEnglishName c.hamlet)
  else if compTruthy c.village then truthyPush (getEnglishName c.village)
  else if compTruthy c.suburb then truthyPush (getEnglishName c.suburb)
  else if compTruthy c.town then truthyPush (getEnglishName c.town)
  else if compTruthy c.city then truthyPush (getEnglishName c.city)
  else []

/-- County push: only when some part was already collected, and only when
the county name is truthy and not already present. -/
def countyPart (c : Components) (sofar : List String) : List String :=
  if sofar.isEmpty then []
  else match getEnglishName c.county with
    | none => []
    | some s => if s ≠ "" ∧ ¬ sofar.contains s then [s] else []

/-- State push: `components.state && components.country !== 'United States'`
(the strict comparison is against the raw component value). -/
def statePart (c : Components) : List String :=
  if compTruthy c.state ∧ c.country ≠ some (CompVal.str "United States") then
    truthyPush (getEnglishName c.state)
  else []

/-- Country push: always attempted last. -/
def countryPart (c : Components) : List String :=
  if compTruthy c.country then truthyPush (getEnglishName c.country)
  else []

/-- The parts list assembled from the winning candidate's components. -/
def locationParts (c : Components) : List String :=
  let tier := landmarkPart c ++ settlementPart c
  tier ++ countyPart c tier ++ statePart c ++ countryPart c

/-- The final expression `parts.length > 0 ? parts.join(', ') : undefined`. -/
def buildLocationName (c : Components) : Option String :=
  let parts := locationParts c
  if parts.isEmpty then none else some (String.intercalate ", " parts)

/-- The body of `reverseGeocode` after a successful HTTP round trip, as a function of
the parsed candidate list: empty list yields nothing, otherwise the best
candidate by specificity is assembled. -/
def reverseGeocodeResults (rs : List GeoResult) : Option String :=
  match rs with
  | [] => none
  | r0 :: _ => buildLocationName (selectBestGo rs r0 0).components

-- ===========================================================================
-- Path and date helpers (Node path.basename / path.parse / path.extname,
-- Date#toISOString().split('T')[0])
-- ===========================================================================

/-- Node `path.basename`: the last non-empty path segment (trailing
separators ignored); the input itself when there is none. -/
def basename (s : String) : String :=
  let r := ((s.toList.reverse.dropWhile (fun ch => ch = '/')).takeWhile
    (fun ch => ch ≠ '/')).reverse
  if r.isEmpty then s else String.mk r

/-- The `replace(/\.[^/.]+$/, '')` idiom of the source (also what
`path.parse(p).name` computes on a basename): strip a final extension — a
dot followed by at least one character that is neither a dot nor a slash,
anchored at the end. -/
def stripExt (s : String) : String :=
  let rev := s.toList.reverse
  let ext := rev.takeWhile (fun ch => ch ≠ '.' ∧ ch ≠ '/')
  match rev.drop ext.length with
  | '.' :: rest => if ext.isEmpty then s else String.mk rest.reverse
  | _ => s

/-- Node `path.extname`: the final extension of the basename including its
dot; empty for dotfiles and for names without a dot. -/
def extname (s : String) : String :=
  let rev := (basename s).toList.reverse
  let ext := rev.takeWhile (fun ch => ch ≠ '.')
  match rev.drop ext.length with
  | '.' :: rest =>
    if rest.isEmpty then "" else String.mk ('.' :: ext.reverse)
  | _ => ""

/-- A JS `Date` is modelled by its ISO-8601 rendering
(`Date#toISOString()`), e.g. `"2023-05-01T12:00:00.000Z"`; equality of
dates is equality of these strings. -/
abbrev JSDate := String

/-- The idiom `date.toISOString().split('T')[0]`: the calendar-date part — everything
before the first `T` of the ISO rendering. -/
def datePart (d : JSDate) : String :=
  String.mk (d.toList.takeWhile (fun ch => ch ≠ 'T'))

-- ===========================================================================
-- Metadata generation (PhotoMetadataGenerator.generateMetadata,
-- src/utils/metadata.ts)
-- ===========================================================================

/-- The formatted settings group of an ExifData. -/
structure SettingsData where
  aperture : Option String := none
  shutter : Option String := none
  iso : Option String := none
  focalLength : Option String := none
deriving DecidableEq, Repr

/-- The location group of an ExifData. -/
structure LocationData where
  name : Option String := none
  latitude : Option Int := none
  longitude : Option Int := none
deriving DecidableEq, Repr

/-- The ExifData shape returned by `ExifProcessor.extractExifData`. -/
structure ExifData where
  camera : Option String := none
  lens : Option String := none
  settings : Option SettingsData := none
  location : Option LocationData := none
  dateTime : Option JSDate := none
  caption : Option String := none
deriving DecidableEq, Repr

/-- The LLMAnalysis shape returned by the analyzer (or its fallback). -/
structure LLMAnalysis where
  title : String
  description : String
  altText : String
  suggestedTags : List String
deriving DecidableEq, Repr

/-- The PhotoMetadata shape assembled by `generateMetadata`. -/
structure PhotoMetadata where
  id : String
  title : String
  description : String
  coverAlt : String
  coverSrc : String
  camera : Option String
  lens : Option String
  settings : Option SettingsData
  location : Option LocationData
  tags : List String
  publishDate : JSDate
  draft : Bool
deriving DecidableEq, Repr

/-- The final assembly of `generateMetadata`, as a function of the already
extracted ExifData (with any resolved location name merged in), of the
analysis result, and of `new Date()` at the moment of generation.  The
publish date is `exifData.dateTime || new Date()`; the id is the basename
with the extension removed. -/
def generateMetadata (imagePath : String) (exifData : ExifData)
    (llmAnalysis : LLMAnalysis) (now : JSDate) : PhotoMetadata :=
  { id := stripExt (basename imagePath)
    title := llmAnalysis.title
    description := llmAnalysis.description
    coverAlt := llmAnalysis.altText
    coverSrc := imagePath
    camera := exifData.camera
    lens := exifData.lens
    settings := exifData.settings
    location := exifData.location
    tags := llmAnalysis.suggestedTags
    publishDate := exifData.dateTime.getD now
    draft := false }

/-- The publish-date rule as the spec words it (`Modelled from the spec:`
"publishDate is the capture timestamp when known, else the file's
modification time, else the current time at generation"); stated for
comparison with the source's rule above. -/
def specPublishDate (captureTimestamp : Option JSDate) (mtime : Option JSDate)
    (now : JSDate) : JSDate :=
  (captureTimestamp.or mtime).getD now

/-- The sort key of the batch loop in `main`:
`exifData.dateTime || (await fs.stat(imagePath)).mtime` — the only place
the file modification time is consulted. -/
def batchSortDate (dateTime : Option JSDate) (mtime : JSDate) : JSDate :=
  dateTime.getD mtime

-- ===========================================================================
-- Markdown records (generateMarkdownContent / generateFilename,
-- src/scripts/photo-metadata-generator.ts)
-- ===========================================================================

/-- A frontmatter value.  `other` stands for values of keys this pipeline
never produces or touches (they matter for the update-mode frame
theorems). -/
inductive FMValue where
  | str : String → FMValue
  | strList : List String → FMValue
  | boolV : Bool → FMValue
  | coverV : String → String → FMValue
  | settingsV : SettingsData → FMValue
  | locV : Option Int → Option Int → Option String → FMValue
  | other : String → FMValue
deriving DecidableEq, Repr

/-- JS truthiness of an optional string (absent and empty are falsy). -/
def truthyOptStr : Option String → Bool
  | none => false
  | some s => s ≠ ""

/-- The frontmatter object built by `generateMarkdownContent`, in insertion
order: the unconditional keys, then `description`, `camera`, `lens`,
`settings`, `location`, each added only when truthy. -/
def generateMarkdownFrontmatter (metadata : PhotoMetadata)
    (imagePath : String) : List (String × FMValue) :=
  let filename := basename imagePath
  [("title", FMValue.str metadata.title),
   ("publishDate", FMValue.str (datePart metadata.publishDate)),
   ("coverImage", FMValue.coverV metadata.coverAlt
      ("../../assets/photos/" ++ filename)),
   ("tags", FMValue.strList metadata.tags),
   ("draft", FMValue.boolV metadata.draft)]
  ++ (if metadata.description ≠ "" then
        [("description", FMValue.str metadata.description)] else [])
  ++ (if truthyOptStr metadata.camera then
        [("camera", FMValue.str (metadata.camera.getD ""))] else [])
  ++ (if truthyOptStr metadata.lens then
        [("lens", FMValue.str (metadata.lens.getD ""))] else [])
  ++ (match metadata.settings with
      | some st => [("settings", FMValue.settingsV st)]
      | none => [])
  ++ (match metadata.location with
      | some loc =>
        [("location", FMValue.locV loc.latitude loc.longitude
            (if truthyOptStr loc.name then loc.name else none))]
      | none => [])

/-- The markdown body below the frontmatter. -/
def generateMarkdownBody (metadata : PhotoMetadata) : String :=
  if metadata.description ≠ "" then
    metadata.description ++
      "\n\n<!-- Add additional context or story about this photo here -->"
  else
    "<!-- Add description or story about this photo here -->"

/-- A persisted record as handed to `matter.stringify(content, frontmatter)`
(the YAML byte rendering itself is gray-matter's concern). -/
structure MarkdownRecord where
  frontmatter : List (String × FMValue)
  content : String
deriving DecidableEq, Repr

/-- The output of `generateMarkdownContent` as a record. -/
def generateMarkdownRecord (metadata : PhotoMetadata)
    (imagePath : String) : MarkdownRecord :=
  { frontmatter := generateMarkdownFrontmatter metadata imagePath
    content := generateMarkdownBody metadata }

/-- The function `generateFilename`: date prefix, underscore, original
basename without extension, `.md`. -/
def generateFilename (metadata : PhotoMetadata) (imagePath : String) : String :=
  datePart metadata.publishDate ++ "_" ++ stripExt (basename imagePath) ++ ".md"

/-- The record filename `hasMetadataFile` probes for (and the one
`processImage` writes): derived from `exifData.dateTime || new Date()` and
`path.parse(imagePath).name`. -/
def recordFilename (dateTime : Option JSDate) (now : JSDate)
    (imagePath : String) : String :=
  datePart (dateTime.getD now) ++ "_" ++ stripExt (basename imagePath) ++ ".md"

/-- The check `hasMetadataFile`: does the content directory already hold the record
file?  `records` is the set of record filenames present on disk. -/
def hasMetadataFile (records : List String) (dateTime : Option JSDate)
    (now : JSDate) (imagePath : String) : Bool :=
  records.contains (recordFilename dateTime now imagePath)

-- ===========================================================================
-- Generate-mode batch loop (main / processImage,
-- src/scripts/photo-metadata-generator.ts)
-- ===========================================================================

/-- What one `processImage` call did. -/
inductive ProcOutcome where
  | skippedExisting : ProcOutcome
  | wrote : String → ProcOutcome
  | caughtFailure : ProcOutcome
deriving DecidableEq, Repr

/-- One batch file together with its oracles: the EXIF capture timestamp and
whether metadata generation or the record write would throw for it. -/
structure FileSpec where
  path : String
  dateTime : Option JSDate := none
  genFails : Bool := false
deriving DecidableEq, Repr

/-- The function `processImage`: re-checks `hasMetadataFile`, then generates and writes
inside its own try/catch — a thrown generation or write error is logged and
swallowed, so the call itself returns normally in every case. -/
def processImage (force : Bool) (records : List String) (now : JSDate)
    (f : FileSpec) : ProcOutcome :=
  if ¬force ∧ hasMetadataFile records f.dateTime now f.path then
    ProcOutcome.skippedExisting
  else if f.genFails then
    ProcOutcome.caughtFailure
  else
    ProcOutcome.wrote (recordFilename f.dateTime now f.path)

/-- The call to `processImage` as observed by `main`'s `await`: the internal catch means
the promise always resolves. -/
def processImageExc (force : Bool) (records : List String) (now : JSDate)
    (f : FileSpec) : Except String ProcOutcome :=
  Except.ok (processImage force records now f)

/-- The summary counters of the batch loop. -/
structure Tally where
  processed : Nat := 0
  skipped : Nat := 0
  failed : Nat := 0
deriving DecidableEq, Repr

/-- One iteration of the batch loop in `main`: the loop's own
`hasMetadataFile` check counts a skip; otherwise `processImage` runs and
`processed` is incremented; the surrounding `catch` counts `failed` only
when the awaited call rejects. -/
def runBatchStep (force : Bool) (now : JSDate)
    (st : List String × Tally) (f : FileSpec) : List String × Tally :=
  let records := st.1
  let t := st.2
  if ¬force ∧ hasMetadataFile records f.dateTime now f.path then
    (records, { t with skipped := t.skipped + 1 })
  else
    match processImageExc force records now f with
    | Except.ok outcome =>
      (match outcome with
       | ProcOutcome.wrote name => records ++ [name]
       | _ => records,
       { t with processed := t.processed + 1 })
    | Except.error _ => (records, { t with failed := t.failed + 1 })

def runBatchGo (force : Bool) (now : JSDate) :
    List FileSpec → List String × Tally → List String × Tally
  | [], st => st
  | f :: fs, st => runBatchGo force now fs (runBatchStep force now st f)

/-- The whole batch loop over the (already sorted) files, starting from the
records currently on disk and zeroed counters. -/
def runBatch (force : Bool) (now : JSDate) (records : List String)
    (files : List FileSpec) : List String × Tally :=
  runBatchGo force now files (records, {})

-- ===========================================================================
-- File discovery and generate-mode termination (findImageFiles / main,
-- src/scripts/photo-metadata-generator.ts)
-- ===========================================================================

def SUPPORTED_EXTENSIONS : List String :=
  [".jpg", ".jpeg", ".png", ".tiff", ".tif"]

/-- A directory entry; a directory's contents are `none` when reading it
throws (permission error, missing directory). -/
inductive FSEntry where
  | file : String → FSEntry
  | dir : String → Option (List FSEntry) → FSEntry

mutual

def scanEntry (dirPath : String) : FSEntry → List String
  | FSEntry.file name =>
    if SUPPORTED_EXTENSIONS.contains (extname name).toLower then
      [dirPath ++ "/" ++ name]
    else []
  | FSEntry.dir _ none => []
  | FSEntry.dir name (some entries) => scanList (dirPath ++ "/" ++ name) entries

def scanList (dirPath : String) : List FSEntry → List String
  | [] => []
  | e :: es => scanEntry dirPath e ++ scanList dirPath es

end

/-- The scan `findImageFiles(dir)`: an unreadable directory's `readdir` throws; the
catch logs `Failed to read directory` and the accumulated (empty) list is
returned — the error does not propagate. -/
def findImageFiles (dirPath : String)
    (contents : Option (List FSEntry)) : List String :=
  match contents with
  | none => []
  | some entries => scanList dirPath entries

/-- Stable insertion of the batch's date sort (JS `Array#sort` on
`a.date.getTime() - b.date.getTime()`; ISO strings compare like their
timestamps). -/
def insertByDate (key : String → JSDate) (p : String) :
    List String → List String
  | [] => [p]
  | q :: qs =>
    if key p ≤ key q then p :: q :: qs else q :: insertByDate key p qs

def sortByDate (key : String → JSDate) : List String → List String
  | [] => []
  | p :: ps => insertByDate key p (sortByDate key ps)

/-- Per-file oracles for a whole run. -/
structure FileOracle where
  dateTime : String → Option JSDate
  mtime : String → JSDate
  genFails : String → Bool

/-- Outcome of one generate-mode invocation. -/
structure RunResult where
  exitCode : Nat
  summaryShown : Bool
  tally : Option Tally
  records : List String
deriving DecidableEq, Repr

/-- Generate mode of `main` (no specific file given): discover files, bail
out informationally when none are found, sort by capture-date-or-mtime, ask
for confirmation unless forced, then run the batch loop and print the
summary.  Every branch reaches the end of `main` without
`process.exit(1)`. -/
def generateMode (rootPath : String) (rootContents : Option (List FSEntry))
    (answerYes force : Bool) (now : JSDate) (records : List String)
    (oracle : FileOracle) : RunResult :=
  let files := findImageFiles rootPath rootContents
  if files.isEmpty then
    { exitCode := 0, summaryShown := false, tally := none, records := records }
  else if ¬force ∧ ¬answerYes then
    { exitCode := 0, summaryShown := false, tally := none, records := records }
  else
    let sorted := sortByDate
      (fun p => batchSortDate (oracle.dateTime p) (oracle.mtime p)) files
    let specs := sorted.map (fun p =>
      { path := p, dateTime := oracle.dateTime p,
        genFails := oracle.genFails p : FileSpec })
    let out := runBatch force now records specs
    { exitCode := 0, summaryShown := true, tally := some out.2,
      records := out.1 }

-- ===========================================================================
-- Update-EXIF mode (updateExifFields / parseExistingMetadata,
-- src/scripts/photo-metadata-generator.ts)
-- ===========================================================================

/-- JS object spread override: the value of an existing key is replaced in
place, a new key is appended. -/
def setKey : List (String × FMValue) → String → FMValue →
    List (String × FMValue)
  | [], k, v => [(k, v)]
  | (k', v') :: rest, k, v =>
    if k' = k then (k, v) :: rest else (k', v') :: setKey rest k v

/-- The frontmatter merge of `updateExifFields`:
`{ ...existing, ...(camera && { camera }), ...(lens && { lens }),
...(settings && { settings }) }`. -/
def updateExifFrontmatter (existing : List (String × FMValue))
    (exifData : ExifData) : List (String × FMValue) :=
  let m1 := if truthyOptStr exifData.camera then
      setKey existing "camera" (FMValue.str (exifData.camera.getD ""))
    else existing
  let m2 := if truthyOptStr exifData.lens then
      setKey m1 "lens" (FMValue.str (exifData.lens.getD ""))
    else m1
  match exifData.settings with
  | some st => setKey m2 "settings" (FMValue.settingsV st)
  | none => m2

/-- The effect of `updateExifFields` on a parsed record:
`matter.stringify(existingMetadata.content, updatedFrontmatter)` — the body
written back is exactly the parsed body. -/
def updateExifRecord (existing : MarkdownRecord)
    (exifData : ExifData) : MarkdownRecord :=
  { frontmatter := updateExifFrontmatter existing.frontmatter exifData
    content := existing.content }

-- ===========================================================================
-- Claim theorems
-- ===========================================================================

/-- C2: for every input image (every behaviour `render` of the sharp
pipeline), `compressImageForAPI` either raises the budget-exceeded error or
returns a buffer of at most `MAX_BUFFER_SIZE = floor(0.75 * 5 MiB)` bytes;
it never returns a longer buffer. -/
theorem c2_compression_budget_invariant (render : SharpCall → Nat) (n : Nat)
    (h : compressImageForAPI render = Except.ok n) : n ≤ MAX_BUFFER_SIZE :=
  compressGo_ok_le render (85 + 1920) 85 1920
    (render (mkSharpCall 85 1920)) n rfl h

/-- Witness for C2 at the pipeline that always produces an empty buffer. -/
theorem c2_compression_budget_invariant_witness :
    compressImageForAPI (fun _ => 0) = Except.ok 0 ∧ 0 ≤ MAX_BUFFER_SIZE := by
  have h : compressImageForAPI (fun _ => 0) = Except.ok 0 := by
    rw [compressImageForAPI, compressGo]
    norm_num [MAX_BUFFER_SIZE]
  exact ⟨h, c2_compression_budget_invariant (fun _ => 0) 0 h⟩

/-- C8: the compression loop is deterministic in its parameters: whatever
the sharp pipeline returns, the sequence of attempted calls is an initial
segment of the fixed schedule (85,1920), (70,1920), (55,1920), (40,1920),
(40,1536), (40,1228), (40,982), (40,785), (35,785), (30,785), (25,785),
(20,785); the first attempt is always quality 85 at max dimension 1920, and
every attempt passes fit-inside with `withoutEnlargement` (aspect ratio
preserved, never upscaled). -/
theorem c8_compression_schedule (render : SharpCall → Nat) :
    compressionAttempts render <+: fullSchedule ∧
    (compressionAttempts render).head? = some (mkSharpCall 85 1920) ∧
    ∀ call ∈ compressionAttempts render,
      call.fitInside = true ∧ call.withoutEnlargement = true := by
  have hpfx : compressionAttempts render <+: fullSchedule := by
    rw [compressionAttempts, ← scheduleFrom_eq_tail]
    exact List.cons_prefix_cons.mpr
      ⟨rfl, attemptsGo_prefix_scheduleFrom render (85 + 1920) 85 1920 _ rfl⟩
  refine ⟨hpfx, rfl, ?_⟩
  intro call hcall
  have hall : ∀ c ∈ fullSchedule,
      c.fitInside = true ∧ c.withoutEnlargement = true := by decide
  exact hall call (hpfx.subset hcall)

/-- A concrete analysis result used by several counterexamples. -/
def sampleAnalysis : LLMAnalysis :=
  { title := "Sunset"
    description := "A photograph."
    altText := "Photograph: img.jpg"
    suggestedTags := ["photography"] }

/-- C1 counterexample: for an image without a capture timestamp whose file
was last modified on 2023-05-01, `generateMetadata` sets `publishDate` to
the current time of the run (here 2025-10-12), while the claimed priority
order demands the modification time: the generator never consults the
modification time at all (it is not even an input of `generateMetadata`). -/
theorem c1_publish_date_counterexample :
    (generateMetadata "img.jpg" { dateTime := none } sampleAnalysis
        "2025-10-12T09:00:00.000Z").publishDate = "2025-10-12T09:00:00.000Z" ∧
    specPublishDate none (some "2023-05-01T10:00:00.000Z")
        "2025-10-12T09:00:00.000Z" = "2023-05-01T10:00:00.000Z" ∧
    ("2025-10-12T09:00:00.000Z" : JSDate) ≠ "2023-05-01T10:00:00.000Z" := by
  refine ⟨rfl, rfl, ?_⟩
  decide

/-- C1 amended: `publishDate` is the EXIF capture timestamp when present and
otherwise the current time at generation; the file's modification time never
enters `publishDate` — it is used only as the fallback of the batch sort
key. -/
theorem c1_publish_date_precedence (imagePath : String) (exifData : ExifData)
    (llmAnalysis : LLMAnalysis) (now : JSDate) :
    (∀ d, exifData.dateTime = some d →
      (generateMetadata imagePath exifData llmAnalysis now).publishDate = d) ∧
    (exifData.dateTime = none →
      (generateMetadata imagePath exifData llmAnalysis now).publishDate = now) ∧
    (∀ dateTime mtime, batchSortDate dateTime mtime = dateTime.getD mtime) := by
  refine ⟨?_, ?_, fun _ _ => rfl⟩
  · intro d hd
    simp [generateMetadata, hd]
  · intro hd
    simp [generateMetadata, hd]

/-- Witness for C1 (amended) at concrete inputs: one image with a capture
timestamp, one without. -/
theorem c1_publish_date_precedence_witness :
    (generateMetadata "a.jpg" { dateTime := some "2020-01-02T03:04:05.000Z" }
        sampleAnalysis "2025-10-12T09:00:00.000Z").publishDate =
      "2020-01-02T03:04:05.000Z" ∧
    (generateMetadata "a.jpg" { dateTime := none } sampleAnalysis
        "2025-10-12T09:00:00.000Z").publishDate = "2025-10-12T09:00:00.000Z" :=
  ⟨(c1_publish_date_precedence "a.jpg"
      { dateTime := some "2020-01-02T03:04:05.000Z" } sampleAnalysis
      "2025-10-12T09:00:00.000Z").1 "2020-01-02T03:04:05.000Z" rfl,
   (c1_publish_date_precedence "a.jpg" { dateTime := none } sampleAnalysis
      "2025-10-12T09:00:00.000Z").2.1 rfl⟩

/-- A candidate whose only component is the country. -/
def franceOnly : Components := { country := some (CompVal.str "France") }

/-- C3 counterexample: a candidate set whose winner has no landmark-tier and
no settlement-tier component still yields a location name — the bare
country-only string "France" — because the assembly appends state and
country unconditionally. -/
theorem c3_country_only_counterexample :
    reverseGeocodeResults [{ components := franceOnly }] = some "France" ∧
    franceOnly.attraction = none ∧ franceOnly.mountain = none ∧
    franceOnly.peak = none ∧ franceOnly.hamlet = none ∧
    franceOnly.village = none ∧ franceOnly.suburb = none ∧
    franceOnly.town = none ∧ franceOnly.city = none := by
  refine ⟨?_, rfl, rfl, rfl, rfl, rfl, rfl, rfl, rfl⟩
  rfl

/-- C3 amended: when the winning candidate has no landmark-tier and no
settlement-tier component, the resolver returns exactly the (possibly
empty) state-and-country tail: state (unless the country is the string
"United States") followed by country; it returns nothing only when that
tail is empty. -/
theorem c3_no_tier_state_country (c : Components)
    (ha : c.attraction = none) (hm : c.mountain = none) (hp : c.peak = none)
    (hh : c.hamlet = none) (hv : c.village = none) (hs : c.suburb = none)
    (ht : c.town = none) (hc : c.city = none) :
    buildLocationName c =
      (if (statePart c ++ countryPart c).isEmpty then none
       else some (String.intercalate ", " (statePart c ++ countryPart c))) := by
  have h1 : landmarkPart c = [] := by
    simp [landmarkPart, ha, hm, hp, compTruthy]
  have h2 : settlementPart c = [] := by
    simp [settlementPart, hh, hv, hs, ht, hc, compTruthy]
  simp only [buildLocationName, locationParts, h1, h2, List.nil_append,
    countyPart, List.isEmpty_nil, if_true]

/-- Witness for C3 (amended) at the country-only candidate. -/
theorem c3_no_tier_state_country_witness :
    buildLocationName franceOnly = some "France" := by
  rw [c3_no_tier_state_country franceOnly rfl rfl rfl rfl rfl rfl rfl rfl]
  rfl

theorem truthyPush_mem {s : String} {o : Option String}
    (h : s ∈ truthyPush o) : o = some s := by
  cases o with
  | none => simp [truthyPush] at h
  | some t =>
    by_cases ht : t = "" <;> simp [truthyPush, ht] at h
    rw [h]

theorem mem_landmarkPart {c : Components} {s : String}
    (h : s ∈ landmarkPart c) :
    getEnglishName c.attraction = some s ∨
    getEnglishName c.mountain = some s ∨
    getEnglishName c.peak = some s := by
  unfold landmarkPart at h
  split at h
  · exact Or.inl (truthyPush_mem h)
  · split at h
    · exact Or.inr (Or.inl (truthyPush_mem h))
    · split at h
      · exact Or.inr (Or.inr (truthyPush_mem h))
      · simp at h

theorem mem_settlementPart {c : Components} {s : String}
    (h : s ∈ settlementPart c) :
    getEnglishName c.hamlet = some s ∨
    getEnglishName c.village = some s ∨
    getEnglishName c.suburb = some s ∨
    getEnglishName c.town = some s ∨
    getEnglishName c.city = some s := by
  unfold settlementPart at h
  split at h
  · exact Or.inl (truthyPush_mem h)
  · split at h
    · exact Or.inr (Or.inl (truthyPush_mem h))
    · split at h
      · exact Or.inr (Or.inr (Or.inl (truthyPush_mem h)))
      · split at h
        · exact Or.inr (Or.inr (Or.inr (Or.inl (truthyPush_mem h))))
        · split at h
          · exact Or.inr (Or.inr (Or.inr (Or.inr (truthyPush_mem h))))
          · simp at h

theorem mem_countyPart {c : Components} {sofar : List String} {s : String}
    (h : s ∈ countyPart c sofar) : getEnglishName c.county = some s := by
  unfold countyPart at h
  split at h
  · simp at h
  · split at h
    · simp at h
    · rename_i t heq
      split at h
      · simp at h
        exact h ▸ heq
      · simp at h

theorem mem_statePart {c : Components} {s : String}
    (h : s ∈ statePart c) : getEnglishName c.state = some s := by
  unfold statePart at h
  split at h
  · exact truthyPush_mem h
  · simp at h

theorem mem_countryPart {c : Components} {s : String}
    (h : s ∈ countryPart c) : getEnglishName c.country = some s := by
  unfold countryPart at h
  split at h
  · exact truthyPush_mem h
  · simp at h

/-- C7: the assembled location name never draws on a road/street-level
component: changing the `road` component never changes the result, and
every part of the assembled name is the English name of one of the
landmark, settlement, county, state or country components. -/
theorem c7_no_road_component :
    (∀ (c : Components) (r : Option CompVal),
        buildLocationName { c with road := r } = buildLocationName c) ∧
    ∀ (c : Components) (s : String), s ∈ locationParts c →
      ∃ o ∈ [c.attraction, c.mountain, c.peak, c.hamlet, c.village, c.suburb,
             c.town, c.city, c.county, c.state, c.country],
        getEnglishName o = some s := by
  constructor
  · intro c r
    rfl
  · intro c s h
    unfold locationParts at h
    simp only [List.mem_append] at h
    rcases h with (((h | h) | h) | h) | h
    · rcases mem_landmarkPart h with h' | h' | h'
      · exact ⟨c.attraction, by simp, h'⟩
      · exact ⟨c.mountain, by simp, h'⟩
      · exact ⟨c.peak, by simp, h'⟩
    · rcases mem_settlementPart h with h' | h' | h' | h' | h'
      · exact ⟨c.hamlet, by simp, h'⟩
      · exact ⟨c.village, by simp, h'⟩
      · exact ⟨c.suburb, by simp, h'⟩
      · exact ⟨c.town, by simp, h'⟩
      · exact ⟨c.city, by simp, h'⟩
    · exact ⟨c.county, by simp, mem_countyPart h⟩
    · exact ⟨c.state, by simp, mem_statePart h⟩
    · exact ⟨c.country, by simp, mem_countryPart h⟩

/-- Witness for C7 at the country-only candidate: "France" is in the
assembled parts, and it indeed names one of the allowed components. -/
theorem c7_no_road_component_witness :
    ∃ o ∈ [franceOnly.attraction, franceOnly.mountain, franceOnly.peak,
           franceOnly.hamlet, franceOnly.village, franceOnly.suburb,
           franceOnly.town, franceOnly.city, franceOnly.county,
           franceOnly.state, franceOnly.country],
      getEnglishName o = some "France" :=
  c7_no_road_component.2 franceOnly "France" (by decide)

/-- An analysis result carrying a duplicated tag (the analyzer does not
forbid duplicates). -/
def dupTagsAnalysis : LLMAnalysis :=
  { title := "Alpine Morning"
    description := "A photograph."
    altText := "Photograph: img.jpg"
    suggestedTags := ["alps", "alps"] }

/-- C9 counterexample: an analysis result with a duplicated tag flows
verbatim into the persisted frontmatter — the written record's tags list
is not deduplicated. -/
theorem c9_tags_counterexample :
    (generateMarkdownFrontmatter
        (generateMetadata "img.jpg" {} dupTagsAnalysis
          "2025-10-12T09:00:00.000Z") "img.jpg").lookup "tags" =
      some (FMValue.strList ["alps", "alps"]) ∧
    ¬ (["alps", "alps"] : List String).Nodup :=
  ⟨rfl, by decide⟩

/-- C9 amended: the tags of the persisted record are exactly the analysis
result's tag list, duplicates included: neither `generateMetadata` nor
`generateMarkdownContent` deduplicates. -/
theorem c9_tags_passed_through (imagePath : String) (exifData : ExifData)
    (llmAnalysis : LLMAnalysis) (now : JSDate) :
    (generateMetadata imagePath exifData llmAnalysis now).tags =
      llmAnalysis.suggestedTags ∧
    (generateMarkdownFrontmatter
        (generateMetadata imagePath exifData llmAnalysis now)
        imagePath).lookup "tags" =
      some (FMValue.strList llmAnalysis.suggestedTags) :=
  ⟨rfl, rfl⟩

theorem setKey_lookup_ne (m : List (String × FMValue)) (k : String)
    (v : FMValue) (k2 : String) (h : k2 ≠ k) :
    (setKey m k v).lookup k2 = m.lookup k2 := by
  induction m with
  | nil => simp [setKey, List.lookup, beq_eq_false_iff_ne.mpr h]
  | cons p rest ih =>
    obtain ⟨k', v'⟩ := p
    by_cases hk : k' = k
    · subst hk
      simp [setKey, List.lookup, beq_eq_false_iff_ne.mpr h]
    · simp only [setKey, if_neg hk, List.lookup]
      by_cases he : k2 = k'
      · subst he
        simp
      · simp [beq_eq_false_iff_ne.mpr he, ih]

/-- C10: Update-EXIF mode rewrites the record from the parsed pieces: the
body content is written back unchanged, every frontmatter key other than
`camera`, `lens` and `settings` keeps its parsed value, and a group the
fresh EXIF extraction lacks (falsy in the source's spread conditions) keeps
its existing value rather than being removed or blanked. -/
theorem c10_update_exif_frame (existing : MarkdownRecord)
    (exifData : ExifData) :
    (updateExifRecord existing exifData).content = existing.content ∧
    (∀ k, k ≠ "camera" → k ≠ "lens" → k ≠ "settings" →
      ((updateExifRecord existing exifData).frontmatter).lookup k =
        existing.frontmatter.lookup k) ∧
    (truthyOptStr exifData.camera = false →
      ((updateExifRecord existing exifData).frontmatter).lookup "camera" =
        existing.frontmatter.lookup "camera") ∧
    (truthyOptStr exifData.lens = false →
      ((updateExifRecord existing exifData).frontmatter).lookup "lens" =
        existing.frontmatter.lookup "lens") ∧
    (exifData.settings = none →
      ((updateExifRecord existing exifData).frontmatter).lookup "settings" =
        existing.frontmatter.lookup "settings") := by
  have hsettings : ∀ (m : List (String × FMValue)) (k : String),
      k ≠ "settings" →
      ((match exifData.settings with
        | some st => setKey m "settings" (FMValue.settingsV st)
        | none => m).lookup k) = m.lookup k := by
    intro m k hk
    cases exifData.settings with
    | none => rfl
    | some st => exact setKey_lookup_ne m "settings" _ k hk
  have hlens : ∀ (m : List (String × FMValue)) (k : String), k ≠ "lens" →
      ((if truthyOptStr exifData.lens then
          setKey m "lens" (FMValue.str (exifData.lens.getD "")) else m).lookup k)
        = m.lookup k := by
    intro m k hk
    split
    · exact setKey_lookup_ne m "lens" _ k hk
    · rfl
  have hcamera : ∀ (m : List (String × FMValue)) (k : String), k ≠ "camera" →
      ((if truthyOptStr exifData.camera then
          setKey m "camera" (FMValue.str (exifData.camera.getD "")) else m).lookup k)
        = m.lookup k := by
    intro m k hk
    split
    · exact setKey_lookup_ne m "camera" _ k hk
    · rfl
  refine ⟨rfl, ?_, ?_, ?_, ?_⟩
  · intro k h1 h2 h3
    show (updateExifFrontmatter existing.frontmatter exifData).lookup k = _
    unfold updateExifFrontmatter
    rw [hsettings _ k h3, hlens _ k h2, hcamera _ k h1]
  · intro hc
    show (updateExifFrontmatter existing.frontmatter exifData).lookup "camera" = _
    unfold updateExifFrontmatter
    rw [hsettings _ "camera" (by decide), hlens _ "camera" (by decide),
      if_neg (by simp [hc])]
  · intro hl
    show (updateExifFrontmatter existing.frontmatter exifData).lookup "lens" = _
    unfold updateExifFrontmatter
    rw [hsettings _ "lens" (by decide), if_neg (by simp [hl])]
    exact hcamera _ "lens" (by decide)
  · intro hs
    show (updateExifFrontmatter existing.frontmatter exifData).lookup "settings" = _
    unfold updateExifFrontmatter
    rw [hs]
    rw [hlens _ "settings" (by decide), hcamera _ "settings" (by decide)]

/-- A parsed record used by the C10 witness. -/
def sampleRecord : MarkdownRecord :=
  { frontmatter :=
      [("title", FMValue.str "Old Title"),
       ("publishDate", FMValue.str "2023-05-01"),
       ("camera", FMValue.str "Old Camera"),
       ("extra", FMValue.other "kept")]
    content := "Existing body" }

/-- Witness for C10: a fresh extraction that found only a lens leaves the
body, the unrelated keys, the existing camera and the absent settings all
untouched. -/
theorem c10_update_exif_frame_witness :
    (updateExifRecord sampleRecord { lens := some "50mm" }).content =
      "Existing body" ∧
    ((updateExifRecord sampleRecord { lens := some "50mm" }).frontmatter).lookup
      "title" = some (FMValue.str "Old Title") ∧
    ((updateExifRecord sampleRecord { lens := some "50mm" }).frontmatter).lookup
      "camera" = some (FMValue.str "Old Camera") ∧
    ((updateExifRecord sampleRecord { lens := some "50mm" }).frontmatter).lookup
      "settings" = none := by
  have h := c10_update_exif_frame sampleRecord { lens := some "50mm" }
  exact ⟨h.1,
    (h.2.1 "title" (by decide) (by decide) (by decide)).trans rfl,
    (h.2.2.1 rfl).trans rfl,
    (h.2.2.2.2 rfl).trans rfl⟩

theorem runBatchGo_failed (force : Bool) (now : JSDate) :
    ∀ (files : List FileSpec) (st : List String × Tally),
      (runBatchGo force now files st).2.failed = st.2.failed := by
  intro files
  induction files with
  | nil => intro st; rfl
  | cons f fs ih =>
    intro st
    show (runBatchGo force now fs (runBatchStep force now st f)).2.failed = _
    rw [ih]
    unfold runBatchStep processImageExc
    dsimp only
    split
    · rfl
    · rfl

/-- C4 (code-bug demonstration): a file whose metadata generation throws is
caught inside `processImage`, which returns normally; the batch loop of
`main` therefore counts it as processed — the summary for a single failing
file is processed 1, skipped 0, failed 0, with no record written — and the
`failed` counter of the loop can never be incremented at all. -/
theorem c4_failure_counted_as_processed :
    runBatch false "2025-10-12T09:00:00.000Z" []
        [{ path := "img.jpg", dateTime := none, genFails := true }] =
      ([], { processed := 1, skipped := 0, failed := 0 }) ∧
    ∀ (force : Bool) (now : JSDate) (records : List String)
        (files : List FileSpec),
      (runBatch force now records files).2.failed = 0 :=
  ⟨rfl, fun force now _records files => runBatchGo_failed force now files _⟩

/-- The oracle used by closed evaluations of the generate mode. -/
def trivialOracle : FileOracle :=
  { dateTime := fun _ => none
    mtime := fun _ => "2025-01-01T00:00:00.000Z"
    genFails := fun _ => false }

/-- C5 counterexample: an unreadable asset root is caught inside
`findImageFiles` (logged, empty list returned), so `main` takes the
"No images found to process." path and finishes with exit code 0 — not the
non-zero abort the claim requires. -/
theorem c5_unreadable_root_counterexample :
    generateMode "./src/assets/photos" none true false
        "2025-10-12T09:00:00.000Z" [] trivialOracle =
      { exitCode := 0, summaryShown := false, tally := none, records := [] } :=
  rfl

/-- C5 amended: the generate path never exits non-zero: an unreadable root
directory degrades to the informational zero-file exit (no summary), and
per-file failures also leave the exit code at zero. -/
theorem c5_generate_exit_zero :
    (∀ (rootPath : String) (rootContents : Option (List FSEntry))
        (answerYes force : Bool) (now : JSDate) (records : List String)
        (oracle : FileOracle),
      (generateMode rootPath rootContents answerYes force now records
        oracle).exitCode = 0) ∧
    (∀ (rootPath : String) (answerYes force : Bool) (now : JSDate)
        (records : List String) (oracle : FileOracle),
      generateMode rootPath none answerYes force now records oracle =
        { exitCode := 0, summaryShown := false, tally := none,
          records := records }) := by
  constructor
  · intro rootPath rootContents answerYes force now records oracle
    unfold generateMode
    dsimp only
    split
    · rfl
    · split
      · rfl
      · rfl
  · intro rootPath answerYes force now records oracle
    rfl

theorem runBatchStep_records_subset (force : Bool) (now : JSDate)
    (st : List String × Tally) (f : FileSpec) :
    st.1 ⊆ (runBatchStep force now st f).1 := by
  unfold runBatchStep processImageExc
  dsimp only
  split
  · exact fun x hx => hx
  · cases h : processImage force st.1 now f with
    | wrote name =>
      simp only [h]
      exact List.subset_append_left _ _
    | skippedExisting => simp only [h]; exact fun x hx => hx
    | caughtFailure => simp only [h]; exact fun x hx => hx

theorem runBatchGo_records_subset (force : Bool) (now : JSDate) :
    ∀ (files : List FileSpec) (st : List String × Tally),
      st.1 ⊆ (runBatchGo force now files st).1 := by
  intro files
  induction files with
  | nil => intro st; exact fun x hx => hx
  | cons f fs ih =>
    intro st
    exact (runBatchStep_records_subset force now st f).trans
      (ih (runBatchStep force now st f))

theorem runBatchGo_record_present (now : JSDate) :
    ∀ (files : List FileSpec) (st : List String × Tally),
      (∀ f ∈ files, f.genFails = false) →
      ∀ f ∈ files,
        recordFilename f.dateTime now f.path ∈
          (runBatchGo false now files st).1 := by
  intro files
  induction files with
  | nil =>
    intro st _ f hf
    simp at hf
  | cons g fs ih =>
    intro st hok f hf
    rcases List.mem_cons.mp hf with hfg | hftail
    · subst hfg
      show recordFilename f.dateTime now f.path ∈
        (runBatchGo false now fs (runBatchStep false now st f)).1
      refine runBatchGo_records_subset false now fs
        (runBatchStep false now st f) ?_
      show recordFilename f.dateTime now f.path ∈
        (runBatchStep false now st f).1
      unfold runBatchStep processImageExc
      dsimp only
      split
      · rename_i hskip
        have hmem := hskip.2
        unfold hasMetadataFile at hmem
        exact List.mem_of_elem_eq_true hmem
      · rename_i hskip
        unfold processImage
        have hnf : f.genFails = false := hok f (List.mem_cons_self f fs)
        rw [if_neg hskip, hnf]
        simp
    · exact ih (runBatchStep false now st g)
        (fun f' hf' => hok f' (List.mem_cons_of_mem g hf')) f hftail

theorem runBatchGo_skip_all (now : JSDate) :
    ∀ (files : List FileSpec) (st : List String × Tally),
      (∀ f ∈ files, recordFilename f.dateTime now f.path ∈ st.1) →
      runBatchGo false now files st =
        (st.1, { st.2 with skipped := st.2.skipped + files.length }) := by
  intro files
  induction files with
  | nil => intro st _; rfl
  | cons f fs ih =>
    intro st hall
    show runBatchGo false now fs (runBatchStep false now st f) = _
    have hstep : runBatchStep false now st f =
        (st.1, { st.2 with skipped := st.2.skipped + 1 }) := by
      unfold runBatchStep
      rw [if_pos]
      refine ⟨by simp, ?_⟩
      unfold hasMetadataFile
      exact List.elem_eq_true_of_mem (hall f (List.mem_cons_self f fs))
    rw [hstep, ih (st.1, { st.2 with skipped := st.2.skipped + 1 })
      (fun f' hf' => hall f' (List.mem_cons_of_mem f hf'))]
    simp only [Prod.mk.injEq, true_and, List.length_cons]
    congr 1
    omega

/-- The file used by the C6 counterexample and witness: an image carrying no
EXIF capture timestamp. -/
def imgFile : FileSpec := { path := "img.jpg", dateTime := none, genFails := false }

/-- C6 counterexample: for a file without a capture timestamp the record
filename falls back to the *current* date, so a second run on a later day
does not find the first run's record: it skips nothing and writes a second
record file for the same image. -/
theorem c6_second_run_counterexample :
    (runBatch false "2023-05-01T12:00:00.000Z" [] [imgFile]).1 =
      ["2023-05-01_img.md"] ∧
    runBatch false "2023-05-02T12:00:00.000Z" ["2023-05-01_img.md"] [imgFile] =
      (["2023-05-01_img.md", "2023-05-02_img.md"],
       { processed := 1, skipped := 0, failed := 0 }) :=
  ⟨rfl, rfl⟩

/-- C6 amended: a second run over an unchanged directory with force unset
skips every file and writes nothing, provided no per-file generation fails
and each file's record filename is the same in both runs — which holds
whenever the file has a capture timestamp, and for timestamp-less files
exactly when both runs fall on the same calendar date (the fallback date is
the run's current date, not a property of the file). -/
theorem c6_second_run_skips_all (now1 now2 : JSDate) (records : List String)
    (files : List FileSpec)
    (hok : ∀ f ∈ files, f.genFails = false)
    (hdate : ∀ f ∈ files,
      recordFilename f.dateTime now2 f.path =
        recordFilename f.dateTime now1 f.path) :
    runBatch false now2 (runBatch false now1 records files).1 files =
      ((runBatch false now1 records files).1,
       { processed := 0, skipped := files.length, failed := 0 }) := by
  have hpresent : ∀ f ∈ files,
      recordFilename f.dateTime now2 f.path ∈
        (runBatch false now1 records files).1 := by
    intro f hf
    rw [hdate f hf]
    exact runBatchGo_record_present now1 files (records, {}) hok f hf
  have h := runBatchGo_skip_all now2 files
    ((runBatch false now1 records files).1, {}) hpresent
  simpa [runBatch] using h

/-- Witness for C6 (amended): two same-day runs over the one-file directory;
the second run skips the single file and writes nothing. -/
theorem c6_second_run_skips_all_witness :
    runBatch false "2023-05-01T12:00:00.000Z"
        (runBatch false "2023-05-01T12:00:00.000Z" [] [imgFile]).1 [imgFile] =
      ((runBatch false "2023-05-01T12:00:00.000Z" [] [imgFile]).1,
       { processed := 0, skipped := 1, failed := 0 }) :=
  c6_second_run_skips_all "2023-05-01T12:00:00.000Z" "2023-05-01T12:00:00.000Z"
    [] [imgFile] (by decide) (fun _ _ => rfl)

